import Mathlib

/-!
Verification development for the `openapi-client-axios` runtime client.

The definitions below are a shallow embedding of the repository's request
construction engine:
  * `serializeQueryParameter` (and its array/object helpers) from the
    serialization module,
  * `getBaseURL`, `getRequestConfigForOperation` and
    `getAxiosConfigForOperation` from the `OpenAPIClientAxios` class.

JavaScript runtime values are modelled by `JSValue`; JS objects are modelled
as insertion-ordered association lists (`List (String × α)`) with the
assignment `obj[k] = v` modelled by `objSet`.  Fallible code returns
`Except String α`.
-/

namespace OpenAPIClientAxios

/-- A JavaScript runtime value (the subset that can flow through the
parameter-resolution engine). -/
inductive JSValue where
  | undefined
  | null
  | bool (b : Bool)
  | num (n : Int)
  | str (s : String)
  | arr (items : List JSValue)
  | obj (fields : List (String × JSValue))

/-- A JS primitive as allowed for the scalar (implicit single-parameter) call
form: `typeof` of these is never `'object'` except for `null`. -/
inductive JSPrim where
  | null
  | bool (b : Bool)
  | num (n : Int)
  | str (s : String)
deriving Repr, DecidableEq

def JSPrim.toJSValue : JSPrim → JSValue
  | .null => .null
  | .bool b => .bool b
  | .num n => .num n
  | .str s => .str s

mutual
/-- JavaScript `String(value)` conversion. -/
def jsToString : JSValue → String
  | .undefined => "undefined"
  | .null => "null"
  | .bool b => if b then "true" else "false"
  | .num n => toString n
  | .str s => s
  | .arr items => String.intercalate "," (jsArrayItemStrings items)
  | .obj _ => "[object Object]"

/-- `Array.prototype.join` stringifies elements, except `null`/`undefined`
which become the empty string. -/
def jsArrayItemStrings : List JSValue → List String
  | [] => []
  | .null :: rest => "" :: jsArrayItemStrings rest
  | .undefined :: rest => "" :: jsArrayItemStrings rest
  | v :: rest => jsToString v :: jsArrayItemStrings rest
end

/-- JavaScript truthiness. -/
def truthy : JSValue → Bool
  | .undefined => false
  | .null => false
  | .bool b => b
  | .num n => n != 0
  | .str s => s ≠ ""
  | .arr _ => true
  | .obj _ => true

def truthyPrim (p : JSPrim) : Bool := truthy p.toJSValue

/-- UTF-8 bytes (as `Nat`s) of a single character. -/
def charUtf8Bytes (c : Char) : List Nat :=
  let n := c.toNat
  if n < 0x80 then [n]
  else if n < 0x800 then [0xC0 + n / 0x40, 0x80 + n % 0x40]
  else if n < 0x10000 then
    [0xE0 + n / 0x1000, 0x80 + (n / 0x40) % 0x40, 0x80 + n % 0x40]
  else
    [0xF0 + n / 0x40000, 0x80 + (n / 0x1000) % 0x40, 0x80 + (n / 0x40) % 0x40,
      0x80 + n % 0x40]

/-- UTF-8 bytes of a string. -/
def strUtf8Bytes (s : String) : List Nat :=
  (s.toList.map charUtf8Bytes).flatten

/-- Upper-case hex digit. -/
def hexDigit (n : Nat) : Char :=
  if n < 10 then Char.ofNat (48 + n) else Char.ofNat (55 + n)

/-- `%XX` percent-escape of one byte (upper-case hex). -/
def percentByte (b : Nat) : String :=
  String.mk ['%', hexDigit (b / 16), hexDigit (b % 16)]

/-- Bytes left unescaped by JavaScript's `encodeURIComponent`:
`A-Z a-z 0-9 - _ . ! ~ * ' ( )`. -/
def isEncodeURIComponentSafe (b : Nat) : Bool :=
  (65 ≤ b && b ≤ 90) || (97 ≤ b && b ≤ 122) || (48 ≤ b && b ≤ 57) ||
    b == 45 || b == 95 || b == 46 || b == 33 || b == 126 || b == 42 ||
    b == 39 || b == 40 || b == 41

/-- JavaScript's `encodeURIComponent`. -/
def encodeURIComponent (s : String) : String :=
  String.join ((strUtf8Bytes s).map fun b =>
    if isEncodeURIComponentSafe b then String.singleton (Char.ofNat b)
    else percentByte b)

/-- Bytes left unescaped by the `application/x-www-form-urlencoded`
serializer used by `URLSearchParams.toString`: `A-Z a-z 0-9 * - . _`
(space becomes `+`). -/
def isFormUrlencodedSafe (b : Nat) : Bool :=
  (65 ≤ b && b ≤ 90) || (97 ≤ b && b ≤ 122) || (48 ≤ b && b ≤ 57) ||
    b == 42 || b == 45 || b == 46 || b == 95

/-- `application/x-www-form-urlencoded` escaping of one string. -/
def formUrlencode (s : String) : String :=
  String.join ((strUtf8Bytes s).map fun b =>
    if b == 32 then "+"
    else if isFormUrlencodedSafe b then String.singleton (Char.ofNat b)
    else percentByte b)

/-- `URLSearchParams.toString`: the appended `(name, value)` pairs serialized
in order, joined with `&`. -/
def searchParamsToString (pairs : List (String × String)) : String :=
  String.intercalate "&" (pairs.map fun kv =>
    formUrlencode kv.1 ++ "=" ++ formUrlencode kv.2)

/-- OpenAPI parameter object (the fields the engine reads). -/
structure ParameterObject where
  name : String
  «in» : String
  required : Option Bool := none
  style : Option String := none
  explode : Option Bool := none
deriving Repr, DecidableEq

/-- `serializeArrayParameter` from the serialization module. -/
def serializeArrayParameter (name : String) (value : List JSValue)
    (style : String) (explode : Bool) : List String :=
  if value.isEmpty then []
  else if style = "form" then
    if explode then
      value.map fun item =>
        encodeURIComponent name ++ "=" ++ encodeURIComponent (jsToString item)
    else
      [encodeURIComponent name ++ "=" ++
        String.intercalate "," (value.map fun item => encodeURIComponent (jsToString item))]
  else if style = "spaceDelimited" then
    if explode then
      value.map fun item =>
        encodeURIComponent name ++ "=" ++ encodeURIComponent (jsToString item)
    else
      [encodeURIComponent name ++ "=" ++
        String.intercalate "%20" (value.map fun item => encodeURIComponent (jsToString item))]
  else if style = "pipeDelimited" then
    if explode then
      value.map fun item =>
        encodeURIComponent name ++ "=" ++ encodeURIComponent (jsToString item)
    else
      [encodeURIComponent name ++ "=" ++
        String.intercalate "%7C" (value.map fun item => encodeURIComponent (jsToString item))]
  else
    value.map fun item =>
      encodeURIComponent name ++ "=" ++ encodeURIComponent (jsToString item)

/-- `serializeObjectParameter` from the serialization module. -/
def serializeObjectParameter (name : String) (value : List (String × JSValue))
    (style : String) (explode : Bool) : List String :=
  if value.isEmpty then []
  else if style = "deepObject" then
    if explode then
      value.map fun kv =>
        encodeURIComponent name ++ "[" ++ encodeURIComponent kv.1 ++ "]=" ++
          encodeURIComponent (jsToString kv.2)
    else
      [encodeURIComponent name ++ "=" ++
        String.intercalate "," (value.flatMap fun kv =>
          [encodeURIComponent kv.1, encodeURIComponent (jsToString kv.2)])]
  else if style = "form" then
    if explode then
      value.map fun kv =>
        encodeURIComponent kv.1 ++ "=" ++ encodeURIComponent (jsToString kv.2)
    else
      [encodeURIComponent name ++ "=" ++
        String.intercalate "," (value.flatMap fun kv =>
          [encodeURIComponent kv.1, encodeURIComponent (jsToString kv.2)])]
  else
    value.map fun kv =>
      encodeURIComponent kv.1 ++ "=" ++ encodeURIComponent (jsToString kv.2)

/-- `serializeQueryParameter` from the serialization module: style defaults to
`'form'` (also when the declared style is the empty string, JS `||`), explode
defaults to `true`. -/
def serializeQueryParameter (param : Option ParameterObject) (name : String)
    (value : JSValue) : List String :=
  let style :=
    match param with
    | some p =>
      match p.style with
      | some s => if s = "" then "form" else s
      | none => "form"
    | none => "form"
  let explode :=
    match param with
    | some p => p.explode.getD true
    | none => true
  match value with
  | .null => []
  | .undefined => []
  | .arr items => serializeArrayParameter name items style explode
  | .obj fields => serializeObjectParameter name fields style explode
  | v => [encodeURIComponent name ++ "=" ++ encodeURIComponent (jsToString v)]

/-! ### Path / URL templates

Model of the external `bath-es5` template library used by the client: a
template is a string containing `{name}` tokens; `names` lists the tokens in
order and `path` substitutes values for them. -/

/-- One piece of a parsed URL template. -/
inductive TemplatePart where
  | lit (s : String)
  | param (n : String)
deriving Repr, DecidableEq

/-- Character-level template scanner (fuel-based so that it reduces in the
kernel; the fuel is always at least the input length plus one).  A `{` with no
matching `}` (or with nothing between the braces) stays literal. -/
def parseTemplate (fuel : Nat) (cs : List Char) : List TemplatePart :=
  match fuel, cs with
  | 0, _ => []
  | _, [] => []
  | fuel + 1, c :: rest =>
    if c = '{' then
      let name := rest.takeWhile fun ch => ch ≠ '}'
      match rest.drop name.length with
      | '}' :: after =>
        if name.isEmpty then
          -- `{}` carries no token name; both braces stay literal
          TemplatePart.lit "\x7b\x7d" :: parseTemplate fuel after
        else
          TemplatePart.param (String.mk name) :: parseTemplate fuel after
      | _ => [TemplatePart.lit (String.mk (c :: rest))]
    else
      TemplatePart.lit (String.singleton c) :: parseTemplate fuel rest

/-- Parse a template into literal chunks and `{name}` tokens. -/
def templateParts (template : String) : List TemplatePart :=
  parseTemplate (template.toList.length + 1) template.toList

/-- The `{name}` tokens of a template, in order (`bath(url).names`). -/
def templateNames (template : String) : List String :=
  (templateParts template).filterMap fun
    | .param n => some n
    | .lit _ => none

/-- `bath(url).path(params)` over a string-valued parameter map. -/
def substTemplateStr (template : String) (params : List (String × String)) : String :=
  String.join ((templateParts template).map fun
    | .lit s => s
    | .param n => (params.lookup n).getD "undefined")

/-- `bath(path).path(pathParams)` over the JS-valued `pathParams` object
(a missing or `undefined` entry is inserted as `"undefined"`). -/
def substTemplateJS (template : String) (params : List (String × JSValue)) : String :=
  String.join ((templateParts template).map fun
    | .lit s => s
    | .param n => jsToString ((params.lookup n).getD JSValue.undefined))

/-! ### Server model and `getBaseURL` -/

/-- A server-variable declaration: optional `enum` list and a `default`. -/
structure ServerVariable where
  enum : Option (List String) := none
  default : String
deriving Repr, DecidableEq

/-- An entry of the document's `servers` list (an absent `variables` object is
modelled as `none`). -/
structure Server where
  url : String
  description : Option String := none
  «variables» : Option (List (String × ServerVariable)) := none
deriving Repr, DecidableEq

/-- A value supplied in the `baseURLVariables` table (`string | number`). -/
inductive OverrideValue where
  | num (i : Int)
  | str (s : String)
deriving Repr, DecidableEq

/-- The `withServer` selector: a zero-based index, a description string, or a
literal `Server` object. -/
inductive ServerSelector where
  | idx (n : Nat)
  | desc (d : String)
  | srv (s : Server)
deriving Repr, DecidableEq

/-- JS `list[i]` for an integer index: `none` (`undefined`) when out of
bounds or negative. -/
def listGetInt (es : List String) (i : Int) : Option String :=
  if i < 0 then none else es.get? i.toNat

/-- The per-name body of the variable-resolution loop in `getBaseURL`.
Reading a field of an undeclared variable is the JS `TypeError` crash. -/
def resolveServerVariable (overrides : List (String × OverrideValue))
    (varSet : Option (List (String × ServerVariable)))
    (name : String) : Except String String :=
  let varDecl := (varSet.getD []).lookup name
  match overrides.lookup name with
  | some ov =>
    match varDecl with
    | none => .error ("TypeError: cannot read enum of undeclared baseURL variable " ++ name)
    | some vd =>
      match vd.enum with
      | some es =>
        match ov with
        | .num i =>
          match listGetInt es i with
          | some enumVal =>
            if enumVal ≠ "" then .ok enumVal
            else .error ("index " ++ toString i ++
              " out of range for enum of baseURL variable: " ++ name)
          | none => .error ("index " ++ toString i ++
              " out of range for enum of baseURL variable: " ++ name)
        | .str s =>
          if es.contains s then .ok s
          else .error (s ++ " is not a valid entry for baseURL variable " ++ name)
      | none => .ok vd.default
  | none =>
    match varDecl with
    | none => .error ("TypeError: cannot read default of undeclared baseURL variable " ++ name)
    | some vd => .ok vd.default

/-- The document (the fields the request engine reads). -/
structure Document where
  servers : List Server := []
deriving Repr, DecidableEq

/-- Operation record produced by the operation catalog. -/
structure Operation where
  operationId : Option String := none
  path : String
  method : String
  parameters : List ParameterObject := []
  servers : List Server := []

/-- The client state read by the request-construction engine: the
dereferenced definition, the default-server selector, the `baseURLVariables`
table, the `applyMethodCommonHeaders` flag, and the axios instance's default
headers (`defaults.headers.common` and per-method). -/
structure ClientState where
  definition : Option Document := none
  defaultServer : ServerSelector := .idx 0
  baseURLVariables : List (String × OverrideValue) := []
  applyMethodCommonHeaders : Bool := false
  headersCommon : List (String × JSValue) := []
  headersByMethod : List (String × List (String × JSValue)) := []

/-- `getBaseURL` from the client class. -/
def getBaseURL (c : ClientState) (operation : Option Operation) :
    Except String (Option String) :=
  match c.definition with
  | none => .ok none
  | some d =>
    match operation.bind (fun op => op.servers.head?) with
    | some s => .ok (some s.url)
    | none =>
      let targetServer : Option Server :=
        match c.defaultServer with
        | .idx n => d.servers.get? n
        | .desc ds => d.servers.find? fun s => s.description = some ds
        | .srv s => if s.url ≠ "" then some s else none
      match targetServer with
      | none => .ok none
      | some ts =>
        let names := templateNames ts.url
        if names.isEmpty then .ok (some ts.url)
        else do
          let resolved ← names.mapM fun n =>
            (resolveServerVariable c.baseURLVariables ts.«variables» n).map fun v => (n, v)
          .ok (some (substTemplateStr ts.url resolved))

/-! ### Parameter resolution and `getRequestConfigForOperation` -/

/-- An explicit parameter entry `{name, value, in?}` of a `ParamsArray`. -/
structure ExplicitParam where
  name : String
  value : JSValue
  «in» : Option String := none

/-- The first positional call argument, as classified by the engine's
`Array.isArray` / `typeof` dispatch: absent, a single JS primitive, an array
of explicit entries, or a plain object. -/
inductive ParamsInput where
  | undef
  | scalar (p : JSPrim)
  | list (ps : List ExplicitParam)
  | obj (fields : List (String × JSValue))

/-- The positional call arguments `(parameters?, data?, config?)`; the
override config is added later for `getAxiosConfigForOperation`. -/
structure OperationArgs where
  params : ParamsInput := .undef
  payload : JSValue := .undefined

/-- JS object assignment `l[k] = v`: replace the value in place if the key
exists, otherwise append the new key at the end. -/
def objSet (l : List (String × α)) (k : String) (v : α) : List (String × α) :=
  match l with
  | [] => [(k, v)]
  | p :: rest => if p.1 = k then (k, v) :: rest else p :: objSet rest k v

/-- JS object spread `{...base, ...upd}` (also a sequence of assignments
`base[k] = v`, one per entry of `upd`) on association lists. -/
def objMerge (base upd : List (String × α)) : List (String × α) :=
  upd.foldl (fun acc kv => objSet acc kv.1 kv.2) base

/-- The mutable per-call state of `getRequestConfigForOperation`: the four
buckets plus the `URLSearchParams` accumulator. -/
structure ReqState where
  pathParams : List (String × JSValue) := []
  searchParams : List (String × String) := []
  query : List (String × JSValue) := []
  headers : List (String × JSValue) := []
  cookies : List (String × JSValue) := []

/-- The strings appended to `URLSearchParams` for one query value: one append
per element for an array, one append otherwise (`append` stringifies). -/
def searchAppendValues (v : JSValue) : List String :=
  match v with
  | .arr items => items.map jsToString
  | _ => [jsToString v]

/-- `setRequestParam` closure: route one `(name, value, type)` triple into its
bucket.  An unrecognized `type` string falls through the switch untouched. -/
def setRequestParam (s : ReqState) (name : String) (value : JSValue)
    (type : String) : ReqState :=
  if type = "path" then { s with pathParams := objSet s.pathParams name value }
  else if type = "query" then
    { s with
      searchParams := s.searchParams ++ (searchAppendValues value).map fun x => (name, x),
      query := objSet s.query name value }
  else if type = "header" then { s with headers := objSet s.headers name value }
  else if type = "cookie" then { s with cookies := objSet s.cookies name value }
  else s

/-- `getParamType` closure: the declared `in` of the first parameter with this
name, defaulting to `query` for undeclared names. -/
def getParamType (parameters : List ParameterObject) (paramName : String) : String :=
  match parameters.find? fun p => p.name = paramName with
  | some p => p.«in»
  | none => "query"

/-- `getFirstOperationParam` closure: the first parameter declared
`required: true`, else the first declared parameter. -/
def getFirstOperationParam (parameters : List ParameterObject) :
    Option ParameterObject :=
  match parameters.find? fun p => p.required = some true with
  | some p => some p
  | none => parameters.head?

/-- Loop body of the `ParamsArray` branch: an explicit entry routes by its
own `in` when given and truthy, else by the declared parameter lookup. -/
def listRouteStep (parameters : List ParameterObject) (s : ReqState)
    (p : ExplicitParam) : ReqState :=
  let t := match p.«in» with
    | some s' => if s' ≠ "" then s' else getParamType parameters p.name
    | none => getParamType parameters p.name
  setRequestParam s p.name p.value t

/-- Loop body of the `ParamsObject` branch: entries with `undefined` values
are skipped, the rest route by the declared parameter lookup. -/
def objRouteStep (parameters : List ParameterObject) (s : ReqState)
    (nv : String × JSValue) : ReqState :=
  match nv.2 with
  | .undefined => s
  | v => setRequestParam s nv.1 v (getParamType parameters nv.1)

/-- The argument-classification step of `getRequestConfigForOperation`:
route the first call argument into the buckets.  A `null` scalar takes the
`typeof === 'object'` branch (iterating nothing); a falsy scalar fails the
`else if (paramsArg)` test and routes nothing. -/
def routeParams (parameters : List ParameterObject) (operationId : Option String) :
    ParamsInput → Except String ReqState
  | .undef => .ok {}
  | .list ps => .ok (ps.foldl (listRouteStep parameters) {})
  | .obj fields => .ok (fields.foldl (objRouteStep parameters) {})
  | .scalar p =>
    match p with
    | .null => .ok {}
    | p =>
      if truthyPrim p then
        match getFirstOperationParam parameters with
        | none => .error ("No parameters found for operation " ++ (operationId.getD "undefined"))
        | some fp => .ok (setRequestParam {} fp.name p.toJSValue fp.«in»)
      else .ok {}

/-- The `RequestConfig` record returned by `getRequestConfigForOperation`. -/
structure RequestConfig where
  method : String
  url : String
  path : String
  pathParams : List (String × JSValue)
  query : List (String × JSValue)
  queryString : String
  headers : List (String × JSValue)
  cookies : List (String × JSValue)
  payload : JSValue

/-- Merge a list of default headers into the headers bucket by plain
assignment (`headers[key] = val`). -/
def mergeHeaderDefaults (headers : List (String × JSValue))
    (defaults : List (String × JSValue)) : List (String × JSValue) :=
  objMerge headers defaults

/-- One step of the "make sure all path parameters are set" loop:
`pathParams[name] = `${pathParams[name]}`` (a missing entry stringifies to
`"undefined"`). -/
def stringifyPathParam (pp : List (String × JSValue)) (n : String) :
    List (String × JSValue) :=
  objSet pp n (JSValue.str (jsToString ((pp.lookup n).getD JSValue.undefined)))

/-- The tail of `getRequestConfigForOperation` once the buckets are routed
and the base URL is resolved: stringify/complete the path parameters,
substitute the path, serialize the query string, build the full URL and merge
the default headers over the per-call headers. -/
def assembleRequestConfig (c : ClientState) (operation : Operation)
    (payload : JSValue) (s : ReqState) (baseURL : Option String) :
    RequestConfig :=
  -- make sure all path parameters are set (missing ones stringify to "undefined")
  let names := templateNames operation.path
  let pathParams := names.foldl stringifyPathParam s.pathParams
  let path := substTemplateJS operation.path pathParams
  let queryString := searchParamsToString s.searchParams
  let url := (match baseURL with | some b => b | none => "undefined") ++ path ++
    (if queryString = "" then "" else "?" ++ queryString)
  -- add default common headers, then method specific default headers
  let headers := mergeHeaderDefaults s.headers c.headersCommon
  let headers :=
    if c.applyMethodCommonHeaders then
      mergeHeaderDefaults headers ((c.headersByMethod.lookup operation.method).getD [])
    else headers
  { method := operation.method
    url := url
    path := path
    pathParams := pathParams
    query := s.query
    queryString := queryString
    headers := headers
    cookies := s.cookies
    payload := payload }

/-- `getRequestConfigForOperation` from the client class. -/
def getRequestConfigForOperation (c : ClientState) (operation : Operation)
    (args : OperationArgs) : Except String RequestConfig := do
  let s ← routeParams operation.parameters operation.operationId args.params
  let baseURL ← getBaseURL c (some operation)
  .ok (assembleRequestConfig c operation args.payload s baseURL)

/-! ### `getAxiosConfigForOperation` -/

/-- The axios request config assembled for an operation call. -/
structure AxiosRequestConfig where
  method : Option String := none
  url : Option String := none
  data : Option JSValue := none
  params : List (String × JSValue) := []
  headers : List (String × JSValue) := []
  baseURL : Option String := none
  timeout : Option Int := none
  responseType : Option String := none

/-- The caller-supplied override config (third call argument): every field is
optional; an absent field does not take part in the object spread. -/
structure OverrideConfig where
  method : Option String := none
  url : Option String := none
  data : Option JSValue := none
  params : Option (List (String × JSValue)) := none
  headers : Option (List (String × JSValue)) := none
  baseURL : Option String := none
  timeout : Option Int := none
  responseType : Option String := none

/-- `getAxiosConfigForOperation` from the client class:
`{...axiosConfig, ...config, params: {...axiosConfig?.params, ...config?.params},
headers: {...axiosConfig?.headers, ...config?.headers}}`. -/
def getAxiosConfigForOperation (c : ClientState) (operation : Operation)
    (args : OperationArgs) (config : Option OverrideConfig) :
    Except String AxiosRequestConfig := do
  let request ← getRequestConfigForOperation c operation args
  let axiosConfig : AxiosRequestConfig := {
    method := some request.method
    url := some request.path
    data := some request.payload
    params := request.query
    headers := request.headers
    baseURL := (operation.servers.head?).map fun s => s.url }
  match config with
  | none => .ok axiosConfig
  | some o => .ok {
      method := o.method.orElse fun _ => axiosConfig.method
      url := o.url.orElse fun _ => axiosConfig.url
      data := o.data.orElse fun _ => axiosConfig.data
      baseURL := o.baseURL.orElse fun _ => axiosConfig.baseURL
      timeout := o.timeout.orElse fun _ => axiosConfig.timeout
      responseType := o.responseType.orElse fun _ => axiosConfig.responseType
      params := objMerge axiosConfig.params (o.params.getD [])
      headers := objMerge axiosConfig.headers (o.headers.getD []) }

/-! ### The `&`-joined expansion of a `ParamsObject`'s query entries

Characterizes what ends up in the `URLSearchParams` accumulator when the
first call argument is a plain object: one `(name, item)` pair per array
element (one pair for a non-array value) for every defined entry routed to
the query bucket. -/
def queryPairsOfEntry (parameters : List ParameterObject)
    (nv : String × JSValue) : List (String × String) :=
  match nv.2 with
  | .undefined => []
  | v =>
    if getParamType parameters nv.1 = "query" then
      (searchAppendValues v).map fun x => (nv.1, x)
    else []

def queryAppendedPairs (parameters : List ParameterObject)
    (fields : List (String × JSValue)) : List (String × String) :=
  fields.flatMap (queryPairsOfEntry parameters)

/-! ### Concrete fixtures (mirroring the repository's test documents) -/

def petIdParam : ParameterObject :=
  { name := "petId", «in» := "path", required := some true }

def ownerIdParam : ParameterObject :=
  { name := "ownerId", «in» := "path", required := some true }

def petShopIdParam : ParameterObject :=
  { name := "x-petshop-id", «in» := "header" }

/-- A query parameter declared `style: form, explode: false`. -/
def idFormNoExplodeParam : ParameterObject :=
  { name := "id", «in» := "query", style := some "form", explode := some false }

/-- The `id` array query parameter with a given style/explode declaration. -/
def styleParam (st : String) (ex : Bool) : ParameterObject :=
  { name := "id", «in» := "query", style := some st, explode := some ex }

def arr345 : JSValue := .arr [.num 3, .num 4, .num 5]

def getPetByIdOp : Operation :=
  { operationId := some "getPetById", path := "/pets/{petId}", method := "get",
    parameters := [petIdParam] }

def getPetOwnerOp : Operation :=
  { operationId := some "getPetOwner", path := "/pets/{petId}/owner/{ownerId}",
    method := "get", parameters := [petIdParam, ownerIdParam] }

def getPetsMetaOp : Operation :=
  { operationId := some "getPetsMeta", path := "/pets/meta", method := "get" }

def getPetsStyledOp : Operation :=
  { operationId := some "getPets", path := "/pets", method := "get",
    parameters := [idFormNoExplodeParam] }

def getPetByIdHeaderOp : Operation :=
  { operationId := some "getPetById", path := "/pets/{petId}", method := "get",
    parameters := [petIdParam, petShopIdParam] }

def petStoreClient : ClientState :=
  { definition := some { servers := [{ url := "http://localhost:8080" }] } }

def headerDefaultsClient : ClientState :=
  { petStoreClient with headersCommon := [("x-petshop-id", .str "defaultShop")] }

/-- The server with an `{foo1}{foo2}{foo3}` URL template from the test
definition. -/
def serverWithVariables : Server :=
  { url := "http://{foo1}.localhost:9090/{foo2}/{foo3}/",
    description := some "server with variable baseURL",
    «variables» := some [
      ("foo1", { enum := some ["bar1", "bar1a"], default := "bar1" }),
      ("foo2", { enum := some ["bar2a", "bar2b"], default := "bar2b" }),
      ("foo3", { enum := some ["bar3a", "bar3b"], default := "bar3a" })] }

def variableClient : ClientState :=
  { definition := some { servers := [serverWithVariables] },
    defaultServer := .idx 0,
    baseURLVariables := [("foo2", .str "bar2a"), ("foo3", .num 1)] }

/-- A server variable whose enum holds the empty string at index 0. -/
def emptyEnumClient : ClientState :=
  { definition := some { servers := [
      { url := "http://{v}.x/",
        «variables» := some [("v", { enum := some [""], default := "d" })] }] },
    baseURLVariables := [("v", .num 0)] }

/-- A per-call override config exercising key-by-key and wholesale merges. -/
def overrideCfg : OverrideConfig :=
  { params := some [("q", .str "cat")],
    headers := some [("x-api-key", .str "secret")],
    timeout := some 5000 }

/-- The axios config computed for `getPetById 1` with `overrideCfg` merged. -/
def axiosCfgWithOverride : AxiosRequestConfig :=
  ((getAxiosConfigForOperation petStoreClient getPetByIdOp
    { params := .scalar (.num 1), payload := .undefined }
    (some overrideCfg)).toOption).getD {}

/-- The axios config computed for `getPetById 1` with no override. -/
def axiosCfgBase : AxiosRequestConfig :=
  ((getAxiosConfigForOperation petStoreClient getPetByIdOp
    { params := .scalar (.num 1), payload := .undefined } none).toOption).getD {}

/-- A server variable declared without an enum list. -/
def noEnumClient : ClientState :=
  { definition := some { servers := [
      { url := "http://{v}.x/",
        «variables» := some [("v", { default := "dflt" })] }] },
    baseURLVariables := [("v", .num 5)] }

/-! ### Association-list lemmas -/

theorem lookup_pair_cons (k a : String) (b : α) (l : List (String × α)) :
    List.lookup k ((a, b) :: l) = if k = a then some b else l.lookup k := by
  by_cases h : k = a
  · subst h; simp [List.lookup]
  · have hb : (k == a) = false := beq_eq_false_iff_ne.mpr h
    simp [List.lookup, hb, h]

theorem lookup_objSet (l : List (String × α)) (k k' : String) (v : α) :
    (objSet l k v).lookup k' = if k' = k then some v else l.lookup k' := by
  induction l with
  | nil =>
    simp only [objSet]
    rw [lookup_pair_cons]
  | cons p rest ih =>
    obtain ⟨a, b⟩ := p
    by_cases hak : a = k
    · subst hak
      simp only [objSet, if_pos rfl]
      by_cases h : k' = a <;> simp [lookup_pair_cons, h]
    · simp only [objSet, if_neg hak]
      simp only [lookup_pair_cons, ih]
      by_cases h1 : k' = a
      · subst h1
        simp [hak]
      · simp [h1]

theorem lookup_eq_none_of_not_mem_keys (l : List (String × α)) (k : String)
    (h : k ∉ l.map Prod.fst) : l.lookup k = none := by
  induction l with
  | nil => rfl
  | cons p rest ih =>
    obtain ⟨a, b⟩ := p
    simp only [List.map_cons, List.mem_cons, not_or] at h
    simp [lookup_pair_cons, h.1, ih h.2]

theorem lookup_objMerge (base upd : List (String × α)) (k : String)
    (h : (upd.map Prod.fst).Nodup) :
    (objMerge base upd).lookup k = ((upd.lookup k).orElse fun _ => base.lookup k) := by
  induction upd generalizing base with
  | nil => simp [objMerge, List.lookup, Option.orElse]
  | cons p rest ih =>
    obtain ⟨a, b⟩ := p
    simp only [List.map_cons, List.nodup_cons] at h
    have hstep : objMerge base ((a, b) :: rest) = objMerge (objSet base a b) rest := rfl
    rw [hstep, ih _ h.2, lookup_pair_cons]
    by_cases hk : k = a
    · subst hk
      rw [lookup_eq_none_of_not_mem_keys rest k h.1]
      simp [lookup_objSet, Option.orElse]
    · simp [hk, lookup_objSet, Option.orElse]

theorem lookup_some_mem (l : List (String × α)) (k : String) (v : α)
    (h : l.lookup k = some v) : (k, v) ∈ l := by
  induction l with
  | nil => simp [List.lookup] at h
  | cons p rest ih =>
    obtain ⟨a, b⟩ := p
    rw [lookup_pair_cons] at h
    by_cases hk : k = a
    · rw [if_pos hk] at h
      obtain rfl := hk
      obtain rfl : b = v := by injection h
      exact List.mem_cons_self _ _
    · rw [if_neg hk] at h
      exact List.mem_cons_of_mem _ (ih h)

theorem mem_objSet (l : List (String × α)) (k : String) (v : α) (kv : String × α)
    (h : kv ∈ objSet l k v) : kv ∈ l ∨ kv = (k, v) := by
  induction l with
  | nil => simpa [objSet] using h
  | cons p rest ih =>
    by_cases hp : p.1 = k
    · rw [objSet, if_pos hp] at h
      rcases List.mem_cons.mp h with h1 | h1
      · exact Or.inr h1
      · exact Or.inl (List.mem_cons_of_mem _ h1)
    · rw [objSet, if_neg hp] at h
      rcases List.mem_cons.mp h with h1 | h1
      · exact Or.inl (h1 ▸ List.mem_cons_self _ _)
      · rcases ih h1 with h2 | h2
        · exact Or.inl (List.mem_cons_of_mem _ h2)
        · exact Or.inr h2

/-! ### Bucket projections of `setRequestParam` -/

theorem searchParams_setRequestParam (s : ReqState) (name : String) (v : JSValue)
    (t : String) :
    (setRequestParam s name v t).searchParams =
      if t = "query" then
        s.searchParams ++ (searchAppendValues v).map fun x => (name, x)
      else s.searchParams := by
  unfold setRequestParam
  split_ifs <;> simp_all

theorem pathParams_setRequestParam (s : ReqState) (name : String) (v : JSValue)
    (t : String) :
    (setRequestParam s name v t).pathParams =
      if t = "path" then objSet s.pathParams name v else s.pathParams := by
  unfold setRequestParam
  split_ifs <;> simp_all

theorem query_setRequestParam (s : ReqState) (name : String) (v : JSValue)
    (t : String) :
    (setRequestParam s name v t).query =
      if t = "query" then objSet s.query name v else s.query := by
  unfold setRequestParam
  split_ifs <;> simp_all

theorem headers_setRequestParam (s : ReqState) (name : String) (v : JSValue)
    (t : String) :
    (setRequestParam s name v t).headers =
      if t = "header" then objSet s.headers name v else s.headers := by
  unfold setRequestParam
  split_ifs <;> simp_all

theorem cookies_setRequestParam (s : ReqState) (name : String) (v : JSValue)
    (t : String) :
    (setRequestParam s name v t).cookies =
      if t = "cookie" then objSet s.cookies name v else s.cookies := by
  unfold setRequestParam
  split_ifs <;> simp_all

/-! ### Routing-fold lemmas -/

theorem searchParams_objRouteStep (parameters : List ParameterObject)
    (init : ReqState) (nv : String × JSValue) :
    (objRouteStep parameters init nv).searchParams =
      init.searchParams ++ queryPairsOfEntry parameters nv := by
  obtain ⟨n, v⟩ := nv
  cases v <;>
    simp only [objRouteStep, queryPairsOfEntry, searchParams_setRequestParam] <;>
    (try split_ifs) <;> simp

theorem searchParams_foldl_objRoute (parameters : List ParameterObject)
    (fields : List (String × JSValue)) (init : ReqState) :
    (fields.foldl (objRouteStep parameters) init).searchParams =
      init.searchParams ++ queryAppendedPairs parameters fields := by
  induction fields generalizing init with
  | nil => simp [queryAppendedPairs]
  | cons nv rest ih =>
    rw [List.foldl_cons, ih]
    rw [searchParams_objRouteStep]
    simp [queryAppendedPairs]

theorem pathParams_lookup_objRouteStep (parameters : List ParameterObject)
    (init : ReqState) (nv : String × JSValue) (n : String) (h : nv.1 ≠ n) :
    (objRouteStep parameters init nv).pathParams.lookup n =
      init.pathParams.lookup n := by
  obtain ⟨a, v⟩ := nv
  have hn : n ≠ a := fun hh => h hh.symm
  cases v <;>
    simp only [objRouteStep, pathParams_setRequestParam] <;>
    (try split_ifs) <;>
    simp [lookup_objSet, hn]

theorem pathParams_lookup_foldl_objRoute (parameters : List ParameterObject)
    (fields : List (String × JSValue)) (init : ReqState) (n : String)
    (h : ∀ kv ∈ fields, kv.1 ≠ n) :
    (fields.foldl (objRouteStep parameters) init).pathParams.lookup n =
      init.pathParams.lookup n := by
  induction fields generalizing init with
  | nil => rfl
  | cons nv rest ih =>
    rw [List.foldl_cons, ih _ fun kv hm => h kv (List.mem_cons_of_mem _ hm),
      pathParams_lookup_objRouteStep _ _ _ _ (h nv (List.mem_cons_self _ _))]

/-! ### Lemmas about the "make sure all path parameters are set" loop -/

theorem lookup_foldl_stringify_preserved (names : List String)
    (pp : List (String × JSValue)) (n : String) (s : String)
    (h : pp.lookup n = some (.str s)) :
    (names.foldl stringifyPathParam pp).lookup n = some (.str s) := by
  induction names generalizing pp with
  | nil => exact h
  | cons m rest ih =>
    rw [List.foldl_cons]
    refine ih _ ?_
    rw [stringifyPathParam, lookup_objSet]
    by_cases hm : n = m
    · subst hm
      rw [h]
      simp [jsToString]
    · simp [hm, h]

theorem lookup_foldl_stringify_missing (names : List String)
    (pp : List (String × JSValue)) (n : String)
    (hmem : n ∈ names) (h0 : pp.lookup n = none) :
    (names.foldl stringifyPathParam pp).lookup n = some (.str "undefined") := by
  induction names generalizing pp with
  | nil => cases hmem
  | cons m rest ih =>
    rw [List.foldl_cons]
    by_cases hm : n = m
    · subst hm
      refine lookup_foldl_stringify_preserved _ _ _ _ ?_
      rw [stringifyPathParam, lookup_objSet, if_pos rfl, h0]
      simp [jsToString]
    · rcases List.mem_cons.mp hmem with h1 | h1
      · exact absurd h1 hm
      · refine ih _ h1 ?_
        rw [stringifyPathParam, lookup_objSet, if_neg hm]
        exact h0

theorem lookup_foldl_stringify_mem (names : List String)
    (pp : List (String × JSValue)) (n : String) (hmem : n ∈ names) :
    ∃ s, (names.foldl stringifyPathParam pp).lookup n = some (.str s) := by
  induction names generalizing pp with
  | nil => cases hmem
  | cons m rest ih =>
    rw [List.foldl_cons]
    by_cases hm : n = m
    · subst hm
      refine ⟨jsToString ((pp.lookup n).getD JSValue.undefined), ?_⟩
      refine lookup_foldl_stringify_preserved _ _ _ _ ?_
      rw [stringifyPathParam, lookup_objSet, if_pos rfl]
    · rcases List.mem_cons.mp hmem with h1 | h1
      · exact absurd h1 hm
      · exact ih _ h1

theorem foldl_stringify_of_all_undefined (names : List String)
    (pp : List (String × JSValue))
    (hall : ∀ kv ∈ pp, kv.2 = JSValue.str "undefined") :
    names.foldl stringifyPathParam pp =
      names.foldl (fun l n => objSet l n (.str "undefined")) pp := by
  induction names generalizing pp with
  | nil => rfl
  | cons m rest ih =>
    rw [List.foldl_cons, List.foldl_cons]
    have hstep : stringifyPathParam pp m = objSet pp m (.str "undefined") := by
      rw [stringifyPathParam]
      cases hlk : pp.lookup m with
      | none => simp [jsToString]
      | some v =>
        have := hall _ (lookup_some_mem _ _ _ hlk)
        simp only at this
        subst this
        simp [jsToString]
    rw [hstep]
    refine ih _ fun kv hm => ?_
    rcases mem_objSet _ _ _ _ hm with h1 | h1
    · exact hall _ h1
    · rw [h1]

/-- When every entry's name resolves to the `path` bucket and no value is
`undefined`, routing a plain object and routing the corresponding explicit
`in: 'path'` array perform the same `setRequestParam` calls. -/
theorem foldl_obj_eq_list_path (parameters : List ParameterObject) :
    ∀ (fields : List (String × JSValue)) (init : ReqState),
      (∀ kv ∈ fields, getParamType parameters kv.1 = "path") →
      (∀ kv ∈ fields, kv.2 ≠ JSValue.undefined) →
      fields.foldl (objRouteStep parameters) init =
        (fields.map fun kv => (⟨kv.1, kv.2, some "path"⟩ : ExplicitParam)).foldl
          (listRouteStep parameters) init := by
  intro fields
  induction fields with
  | nil => intro init _ _; rfl
  | cons kv rest ih =>
    intro init hgpt hdef
    have h1 : getParamType parameters kv.1 = "path" :=
      hgpt kv (List.mem_cons_self _ _)
    have h2 : kv.2 ≠ JSValue.undefined := hdef kv (List.mem_cons_self _ _)
    have hstep : objRouteStep parameters init kv =
        listRouteStep parameters init ⟨kv.1, kv.2, some "path"⟩ := by
      obtain ⟨n, v⟩ := kv
      cases v with
      | undefined => exact absurd rfl h2
      | null => simp [objRouteStep, listRouteStep, h1]
      | bool b => simp [objRouteStep, listRouteStep, h1]
      | num m => simp [objRouteStep, listRouteStep, h1]
      | str s => simp [objRouteStep, listRouteStep, h1]
      | arr items => simp [objRouteStep, listRouteStep, h1]
      | obj fs => simp [objRouteStep, listRouteStep, h1]
    rw [List.map_cons, List.foldl_cons, List.foldl_cons, hstep,
      ih _ (fun x hx => hgpt x (List.mem_cons_of_mem _ hx))
        (fun x hx => hdef x (List.mem_cons_of_mem _ hx))]

/-! ### Inversion lemmas for `getRequestConfigForOperation` -/

theorem getRequestConfigForOperation_ok (c : ClientState) (op : Operation)
    (args : OperationArgs) (s : ReqState) (u : Option String)
    (hs : routeParams op.parameters op.operationId args.params = .ok s)
    (hu : getBaseURL c (some op) = .ok u) :
    getRequestConfigForOperation c op args =
      .ok (assembleRequestConfig c op args.payload s u) := by
  unfold getRequestConfigForOperation
  rw [hs, hu]
  rfl

theorem getRequestConfigForOperation_error_of_route (c : ClientState)
    (op : Operation) (args : OperationArgs) (e : String)
    (h : routeParams op.parameters op.operationId args.params = .error e) :
    getRequestConfigForOperation c op args = .error e := by
  unfold getRequestConfigForOperation
  rw [h]
  rfl

theorem getRequestConfigForOperation_ok_inv (c : ClientState) (op : Operation)
    (args : OperationArgs) (r : RequestConfig)
    (h : getRequestConfigForOperation c op args = .ok r) :
    ∃ s u, routeParams op.parameters op.operationId args.params = .ok s ∧
      getBaseURL c (some op) = .ok u ∧
      r = assembleRequestConfig c op args.payload s u := by
  unfold getRequestConfigForOperation at h
  cases hs : routeParams op.parameters op.operationId args.params with
  | error e =>
    rw [hs] at h
    exact absurd h (by simp [Bind.bind, Except.bind])
  | ok s =>
    rw [hs] at h
    cases hu : getBaseURL c (some op) with
    | error e =>
      rw [hu] at h
      exact absurd h (by simp [Bind.bind, Except.bind])
    | ok u =>
      rw [hu] at h
      refine ⟨s, u, rfl, rfl, ?_⟩
      simpa [Bind.bind, Except.bind] using h.symm

/-! ## The claims -/

/-- C2: for the array value `[3,4,5]` under name `id`, `serializeQueryParameter`
returns: with style `form`/explode `true` the fragments
`["id=3", "id=4", "id=5"]`; with `form`/explode `false` `["id=3,4,5"]`; with
`spaceDelimited`/explode `false` `["id=3%204%205"]`; with
`pipeDelimited`/explode `false` `["id=3%7C4%7C5"]`; and with
`spaceDelimited` or `pipeDelimited` and explode `true` it falls back to the
`form`/explode `true` result. -/
theorem serializeQueryParameter_id345_style_table :
    serializeQueryParameter (some (styleParam "form" true)) "id" arr345 =
        ["id=3", "id=4", "id=5"] ∧
    serializeQueryParameter (some (styleParam "form" false)) "id" arr345 =
        ["id=3,4,5"] ∧
    serializeQueryParameter (some (styleParam "spaceDelimited" false)) "id" arr345 =
        ["id=3%204%205"] ∧
    serializeQueryParameter (some (styleParam "pipeDelimited" false)) "id" arr345 =
        ["id=3%7C4%7C5"] ∧
    serializeQueryParameter (some (styleParam "spaceDelimited" true)) "id" arr345 =
        serializeQueryParameter (some (styleParam "form" true)) "id" arr345 ∧
    serializeQueryParameter (some (styleParam "pipeDelimited" true)) "id" arr345 =
        serializeQueryParameter (some (styleParam "form" true)) "id" arr345 :=
  ⟨rfl, rfl, rfl, rfl, rfl, rfl⟩

/-- C5 counterexample: the variable `v` of `emptyEnumClient` declares
`enum: [""]` and the override supplies the number `0`, an in-bounds index
(`0 < 1`); the claim says the entry at that index (the empty string) is
selected, but `getBaseURL` throws its out-of-range error because the selected
entry is falsy. -/
theorem getBaseURL_enum_index_in_bounds_but_error :
    ((0 : Int) < ([""] : List String).length) ∧
    listGetInt [""] 0 = some "" ∧
    getBaseURL emptyEnumClient none =
      .error "index 0 out of range for enum of baseURL variable: v" :=
  ⟨by decide, rfl, rfl⟩

/-- C5 (amended): for a server URL template variable declared with an enum
list, a number override selects the entry at that index provided that entry
is a non-empty string, and throws if the index is out of bounds or the
selected entry is the empty string; a string override must appear verbatim in
the enum list and otherwise throws; with no override the declared default is
used; all resolved values are substituted into the template (the
`http://{foo1}.localhost:9090/{foo2}/{foo3}/` example resolves to
`http://bar1.localhost:9090/bar2a/bar3b/`). -/
theorem getBaseURL_variable_resolution (overrides : List (String × OverrideValue))
    (vars : List (String × ServerVariable)) (name : String)
    (vd : ServerVariable) (es : List String)
    (hd : vars.lookup name = some vd) (he : vd.enum = some es) :
    (∀ i entry, overrides.lookup name = some (.num i) →
        listGetInt es i = some entry → entry ≠ "" →
        resolveServerVariable overrides (some vars) name = .ok entry) ∧
    (∀ i, overrides.lookup name = some (.num i) →
        (listGetInt es i = none ∨ listGetInt es i = some "") →
        resolveServerVariable overrides (some vars) name =
          .error ("index " ++ toString i ++
            " out of range for enum of baseURL variable: " ++ name)) ∧
    (∀ s, overrides.lookup name = some (.str s) → es.contains s = true →
        resolveServerVariable overrides (some vars) name = .ok s) ∧
    (∀ s, overrides.lookup name = some (.str s) → es.contains s = false →
        resolveServerVariable overrides (some vars) name =
          .error (s ++ " is not a valid entry for baseURL variable " ++ name)) ∧
    (overrides.lookup name = none →
        resolveServerVariable overrides (some vars) name = .ok vd.default) ∧
    getBaseURL variableClient none =
      .ok (some "http://bar1.localhost:9090/bar2a/bar3b/") := by
  refine ⟨?_, ?_, ?_, ?_, ?_, rfl⟩
  · intro i entry ho hget hne
    simp [resolveServerVariable, ho, hd, he, hget, hne]
  · intro i ho hbad
    rcases hbad with hb | hb <;>
      simp [resolveServerVariable, ho, hd, he, hb]
  · intro s ho hc
    have hm : s ∈ es := by simpa using hc
    simp [resolveServerVariable, ho, hd, he, hm]
  · intro s ho hc
    have hm : s ∉ es := by simpa using hc
    simp [resolveServerVariable, ho, hd, he, hm]
  · intro ho
    simp [resolveServerVariable, ho, hd]

/-- C5 witness: the amended resolution rules applied to the `foo3` variable of
the test server (number override `1` selects `"bar3b"`). -/
theorem getBaseURL_variable_resolution_witness :
    resolveServerVariable [("foo2", .str "bar2a"), ("foo3", .num 1)]
      (some [
        ("foo1", { enum := some ["bar1", "bar1a"], default := "bar1" }),
        ("foo2", { enum := some ["bar2a", "bar2b"], default := "bar2b" }),
        ("foo3", { enum := some ["bar3a", "bar3b"], default := "bar3a" })])
      "foo3" = .ok "bar3b" :=
  (getBaseURL_variable_resolution
    [("foo2", .str "bar2a"), ("foo3", .num 1)]
    [("foo1", { enum := some ["bar1", "bar1a"], default := "bar1" }),
      ("foo2", { enum := some ["bar2a", "bar2b"], default := "bar2b" }),
      ("foo3", { enum := some ["bar3a", "bar3b"], default := "bar3a" })]
    "foo3" { enum := some ["bar3a", "bar3b"], default := "bar3a" }
    ["bar3a", "bar3b"] rfl rfl).1 1 "bar3b" rfl rfl (by decide)

/-- C10: a server URL template variable declared without an enum list ignores
any supplied override (number or string) and resolves to its declared default
without error; in particular `noEnumClient` (override `v := 5`, a number, on
an enum-less variable) resolves its base URL from the default. -/
theorem resolveServerVariable_no_enum_ignores_override
    (overrides : List (String × OverrideValue))
    (vars : List (String × ServerVariable)) (name : String) (vd : ServerVariable)
    (hd : vars.lookup name = some vd) (he : vd.enum = none) :
    resolveServerVariable overrides (some vars) name = .ok vd.default ∧
    getBaseURL noEnumClient none = .ok (some "http://dflt.x/") := by
  refine ⟨?_, rfl⟩
  cases ho : overrides.lookup name with
  | none => simp [resolveServerVariable, ho, hd]
  | some ov => simp [resolveServerVariable, ho, hd, he]

/-- C10 witness: the enum-less variable `v` of `noEnumClient` resolves to its
default `"dflt"` despite the number override `5`. -/
theorem resolveServerVariable_no_enum_ignores_override_witness :
    resolveServerVariable [("v", .num 5)] (some [("v", { default := "dflt" })])
      "v" = .ok "dflt" :=
  (resolveServerVariable_no_enum_ignores_override [("v", .num 5)]
    [("v", { default := "dflt" })] "v" { default := "dflt" } rfl rfl).1

/-- C1 counterexample: the operation `getPets` declares the query parameter
`id` with style `form`, explode `false`.  The call `{id: [3,4,5]}` yields the
queryString `"id=3&id=4&id=5"` (URLSearchParams appends one pair per array
element), while the `&`-join of the style-aware `serializeQueryParameter`
fragments for the same parameter is `"id=3,4,5"`: the two differ, so the
queryString is not built from `serializeQueryParameter`. -/
theorem queryString_not_from_serializeQueryParameter :
    (getRequestConfigForOperation petStoreClient getPetsStyledOp
        { params := .obj [("id", arr345)] }).map (fun r => r.queryString) =
      .ok "id=3&id=4&id=5" ∧
    String.intercalate "&"
        (serializeQueryParameter
          (getPetsStyledOp.parameters.find? fun p => p.name = "id") "id" arr345) =
      "id=3,4,5" ∧
    ("id=3&id=4&id=5" : String) ≠ "id=3,4,5" :=
  ⟨rfl, rfl, by decide⟩

/-- C1 (amended): for every operation and every `ParamsObject` call, the final
queryString is the `&`-join of the `application/x-www-form-urlencoded`
fragments of the pairs appended to `URLSearchParams` — one `name=item` pair
per array element and one `name=value` pair otherwise, for every defined
entry routed to the query bucket — ignoring each parameter's declared
style/explode (`serializeQueryParameter` is not consulted). -/
theorem queryString_eq_urlencoded_join (c : ClientState) (op : Operation)
    (fields : List (String × JSValue)) (payload : JSValue) (r : RequestConfig)
    (h : getRequestConfigForOperation c op
        { params := .obj fields, payload := payload } = .ok r) :
    r.queryString =
      String.intercalate "&" ((queryAppendedPairs op.parameters fields).map
        fun kv => formUrlencode kv.1 ++ "=" ++ formUrlencode kv.2) := by
  obtain ⟨s, u, hs, hu, hr⟩ := getRequestConfigForOperation_ok_inv _ _ _ _ h
  have hsv : s = fields.foldl (objRouteStep op.parameters) {} := by
    have : Except.ok (ε := String) (fields.foldl (objRouteStep op.parameters) {}) = .ok s := hs
    injection this
    simp_all
  subst hr
  show searchParamsToString s.searchParams = _
  rw [hsv, searchParams_foldl_objRoute]
  show searchParamsToString ([] ++ queryAppendedPairs op.parameters fields) = _
  rw [List.nil_append]
  rfl

/-- C1 witness: the amended characterization evaluated on the
`getPets`/`{id: [3,4,5]}` call. -/
theorem queryString_eq_urlencoded_join_witness :
    (assembleRequestConfig petStoreClient getPetsStyledOp JSValue.undefined
        ([(("id" : String), arr345)].foldl (objRouteStep getPetsStyledOp.parameters) {})
        (some "http://localhost:8080")).queryString =
      String.intercalate "&"
        ((queryAppendedPairs getPetsStyledOp.parameters [("id", arr345)]).map
          fun kv => formUrlencode kv.1 ++ "=" ++ formUrlencode kv.2) :=
  queryString_eq_urlencoded_join petStoreClient getPetsStyledOp
    [("id", arr345)] .undefined _ rfl

/-- C3 counterexample: `getPetsMeta` declares zero parameters, and the scalar
argument `0` (a number) does not make `getRequestConfigForOperation` throw —
the falsy scalar never reaches the scalar-routing branch, refuting the
"throws if and only if the operation declares zero parameters" reading for
arbitrary scalars. -/
theorem scalar_zero_zero_params_no_throw :
    getPetsMetaOp.parameters = [] ∧
    (getRequestConfigForOperation petStoreClient getPetsMetaOp
      { params := .scalar (.num 0) }).isOk = true :=
  ⟨rfl, rfl⟩

/-- C3 (amended): a truthy scalar first argument (a non-zero number or
non-empty string) is routed to the first parameter declared `required: true`,
or, absent any required parameter, to the first declared parameter, placed in
that parameter's declared bucket (the call equals the explicit
`[{name, value, in}]` call for that parameter); it throws the
`No parameters found` error exactly when the operation declares zero
parameters. -/
theorem truthy_scalar_routes_to_first_param (c : ClientState) (op : Operation)
    (p : JSPrim) (payload : JSValue) (hv : truthyPrim p = true) :
    (getFirstOperationParam op.parameters = none ↔ op.parameters = []) ∧
    (op.parameters = [] →
      getRequestConfigForOperation c op
          { params := .scalar p, payload := payload } =
        .error ("No parameters found for operation " ++
          op.operationId.getD "undefined")) ∧
    (∀ fp, getFirstOperationParam op.parameters = some fp → fp.«in» ≠ "" →
      getRequestConfigForOperation c op
          { params := .scalar p, payload := payload } =
        getRequestConfigForOperation c op
          { params := .list [⟨fp.name, p.toJSValue, some fp.«in»⟩],
            payload := payload }) := by
  refine ⟨?_, ?_, ?_⟩
  · unfold getFirstOperationParam
    cases hparams : op.parameters with
    | nil => simp
    | cons q rest =>
      cases hf : (q :: rest).find? (fun p => p.required = some true) <;> simp [hf]
  · intro hnil
    refine getRequestConfigForOperation_error_of_route _ _ _ _ ?_
    cases p with
    | null => simp [truthyPrim, JSPrim.toJSValue, truthy] at hv
    | bool b => simp [routeParams, hv, hnil, getFirstOperationParam]
    | num n => simp [routeParams, hv, hnil, getFirstOperationParam]
    | str s => simp [routeParams, hv, hnil, getFirstOperationParam]
  · intro fp hfp hne
    have hroute : routeParams op.parameters op.operationId (.scalar p) =
        routeParams op.parameters op.operationId
          (.list [⟨fp.name, p.toJSValue, some fp.«in»⟩]) := by
      cases p with
      | null => simp [truthyPrim, JSPrim.toJSValue, truthy] at hv
      | bool b => simp [routeParams, hv, hfp, listRouteStep, hne]
      | num n => simp [routeParams, hv, hfp, listRouteStep, hne]
      | str s => simp [routeParams, hv, hfp, listRouteStep, hne]
    unfold getRequestConfigForOperation
    rw [hroute]

/-- C3 witness: the amended routing evaluated on `getPetById` with the bare
scalar `1`, together with the spec's example checks
`pathParams = {petId: "1"}` and `path = "/pets/1"`. -/
theorem truthy_scalar_routes_witness :
    ((getFirstOperationParam getPetByIdOp.parameters = none ↔
        getPetByIdOp.parameters = []) ∧
      (getPetByIdOp.parameters = [] →
        getRequestConfigForOperation petStoreClient getPetByIdOp
            { params := .scalar (.num 1), payload := .undefined } =
          .error ("No parameters found for operation " ++
            getPetByIdOp.operationId.getD "undefined")) ∧
      (∀ fp, getFirstOperationParam getPetByIdOp.parameters = some fp →
        fp.«in» ≠ "" →
        getRequestConfigForOperation petStoreClient getPetByIdOp
            { params := .scalar (.num 1), payload := .undefined } =
          getRequestConfigForOperation petStoreClient getPetByIdOp
            { params := .list [⟨fp.name, JSPrim.toJSValue (.num 1), some fp.«in»⟩],
              payload := .undefined })) ∧
    (getRequestConfigForOperation petStoreClient getPetByIdOp
        { params := .scalar (.num 1) }).map (fun r => (r.path, r.pathParams)) =
      .ok ("/pets/1", [("petId", JSValue.str "1")]) :=
  ⟨truthy_scalar_routes_to_first_param petStoreClient getPetByIdOp (.num 1)
      .undefined (by decide), rfl⟩

/-- C9 counterexample: `getPetById` called with the falsy scalar `0` produces
a RequestConfig whose `pathParams` bucket is not empty — it holds the
`"undefined"`-coerced entry for the `petId` template token. -/
theorem falsy_scalar_pathParams_not_empty :
    (getRequestConfigForOperation petStoreClient getPetByIdOp
        { params := .scalar (.num 0) }).map (fun r => r.pathParams) =
      .ok [("petId", JSValue.str "undefined")] ∧
    ([("petId", JSValue.str "undefined")] : List (String × JSValue)) ≠ [] :=
  ⟨rfl, by simp⟩

/-- C9 (amended): a falsy scalar first argument (the number `0`, the empty
string, or `false`) is treated exactly like supplying no parameters at all —
the scalar-routing branch is not entered, so no error is thrown on its
account even for operations with required or zero declared parameters; the
`query` and `cookies` buckets stay empty, and `pathParams` holds exactly the
`"undefined"`-coerced entries for the path template tokens. -/
theorem falsy_scalar_like_no_params (c : ClientState) (op : Operation)
    (p : JSPrim) (payload : JSValue) (hv : truthyPrim p = false) :
    getRequestConfigForOperation c op { params := .scalar p, payload := payload } =
      getRequestConfigForOperation c op { params := .undef, payload := payload } ∧
    (∀ r, getRequestConfigForOperation c op
        { params := .scalar p, payload := payload } = .ok r →
      r.query = [] ∧ r.cookies = [] ∧
      r.pathParams = (templateNames op.path).foldl
        (fun l n => objSet l n (.str "undefined")) []) := by
  have hroute : routeParams op.parameters op.operationId (.scalar p) =
      .ok ({} : ReqState) := by
    cases p with
    | null => rfl
    | bool b => simp [routeParams, hv]
    | num n => simp [routeParams, hv]
    | str s => simp [routeParams, hv]
  constructor
  · unfold getRequestConfigForOperation
    rw [hroute]
    rfl
  · intro r hr
    obtain ⟨s, u, hs, hu, hrr⟩ := getRequestConfigForOperation_ok_inv _ _ _ _ hr
    rw [hroute] at hs
    have hse : ({} : ReqState) = s := by injection hs
    subst hse
    subst hrr
    refine ⟨rfl, rfl, ?_⟩
    exact foldl_stringify_of_all_undefined _ _ (by simp)

/-- C4: for every operation and every `ParamsObject` call that supplies no
entry for a `{name}` token of the path template, `getRequestConfigForOperation`
does not throw (given the base URL resolves): the missing entry is coerced to
the literal string `"undefined"`, the result path is the template substituted
with the completed `pathParams`, and every template token ends up with a
stringified entry in `pathParams`. -/
theorem missing_path_param_coerced_to_undefined (c : ClientState)
    (op : Operation) (fields : List (String × JSValue)) (payload : JSValue)
    (name : String)
    (hmem : name ∈ templateNames op.path)
    (hmiss : ∀ kv ∈ fields, kv.1 ≠ name)
    (hbase : ∃ u, getBaseURL c (some op) = .ok u) :
    ∃ r, getRequestConfigForOperation c op
        { params := .obj fields, payload := payload } = .ok r ∧
      r.pathParams.lookup name = some (.str "undefined") ∧
      r.path = substTemplateJS op.path r.pathParams ∧
      (∀ n ∈ templateNames op.path, ∃ sv, r.pathParams.lookup n = some (.str sv)) := by
  obtain ⟨u, hu⟩ := hbase
  refine ⟨_, getRequestConfigForOperation_ok _ _ _ _ _ rfl hu, ?_, rfl, ?_⟩
  · show ((templateNames op.path).foldl stringifyPathParam
      (fields.foldl (objRouteStep op.parameters) {}).pathParams).lookup name = _
    refine lookup_foldl_stringify_missing _ _ _ hmem ?_
    rw [pathParams_lookup_foldl_objRoute _ _ _ _ hmiss]
    rfl
  · intro n hn
    exact lookup_foldl_stringify_mem _ _ _ hn

/-- C4 witness: `getPetById` called with an empty params object — the
`petId` token is missing and is coerced to `"undefined"`. -/
theorem missing_path_param_witness :
    ∃ r, getRequestConfigForOperation petStoreClient getPetByIdOp
        { params := .obj [], payload := .undefined } = .ok r ∧
      r.pathParams.lookup "petId" = some (.str "undefined") ∧
      r.path = substTemplateJS getPetByIdOp.path r.pathParams ∧
      (∀ n ∈ templateNames getPetByIdOp.path, ∃ sv,
        r.pathParams.lookup n = some (.str sv)) :=
  missing_path_param_coerced_to_undefined petStoreClient getPetByIdOp []
    .undefined "petId" (by decide) (by simp)
    ⟨some "http://localhost:8080", rfl⟩

/-- C6 counterexample: `headerDefaultsClient` configures the common default
header `x-petshop-id: defaultShop`; calling `getPetById` with the per-call
header parameter `x-petshop-id: perCallShop` yields `defaultShop` in the
RequestConfig headers — the default wins, not the per-call value as claimed. -/
theorem default_header_beats_per_call_header :
    (getRequestConfigForOperation headerDefaultsClient getPetByIdHeaderOp
        { params := .obj [("petId", .num 1), ("x-petshop-id", .str "perCallShop")] }).map
      (fun r => r.headers.lookup "x-petshop-id") =
      .ok (some (.str "defaultShop")) ∧
    JSValue.str "defaultShop" ≠ JSValue.str "perCallShop" :=
  ⟨rfl, by simp⟩

/-- C6 (amended): the client's common default headers (and, when
`applyMethodCommonHeaders` is enabled, the HTTP-method-specific default
headers) are merged into the RequestConfig headers after the per-call header
parameters, so for every header key defined by the defaults the default value
wins (method-specific defaults overriding common ones), regardless of any
per-call header parameter for that key. -/
theorem default_headers_merged_after_per_call (c : ClientState) (op : Operation)
    (args : OperationArgs) (r : RequestConfig) (k : String) (vd : JSValue)
    (h : getRequestConfigForOperation c op args = .ok r)
    (hnodupC : (c.headersCommon.map Prod.fst).Nodup)
    (hnodupM : (((c.headersByMethod.lookup op.method).getD []).map Prod.fst).Nodup) :
    (c.applyMethodCommonHeaders = false → c.headersCommon.lookup k = some vd →
      r.headers.lookup k = some vd) ∧
    (c.applyMethodCommonHeaders = true →
      ((((c.headersByMethod.lookup op.method).getD []).lookup k).orElse
        fun _ => c.headersCommon.lookup k) = some vd →
      r.headers.lookup k = some vd) := by
  obtain ⟨s, u, hs, hu, hr⟩ := getRequestConfigForOperation_ok_inv _ _ _ _ h
  subst hr
  have hshow : (assembleRequestConfig c op args.payload s u).headers =
      (if c.applyMethodCommonHeaders then
        mergeHeaderDefaults (mergeHeaderDefaults s.headers c.headersCommon)
          ((c.headersByMethod.lookup op.method).getD [])
      else mergeHeaderDefaults s.headers c.headersCommon) := rfl
  constructor
  · intro ham hv
    rw [hshow, ham]
    rw [if_neg (by simp)]
    rw [mergeHeaderDefaults, lookup_objMerge _ _ _ hnodupC, hv]
    rfl
  · intro ham hv
    rw [hshow, ham]
    rw [if_pos rfl]
    rw [mergeHeaderDefaults, mergeHeaderDefaults,
      lookup_objMerge _ _ _ hnodupM, lookup_objMerge _ _ _ hnodupC]
    cases hmk : ((c.headersByMethod.lookup op.method).getD []).lookup k with
    | some w =>
      rw [hmk] at hv
      simpa using hv
    | none =>
      rw [hmk] at hv
      simp only [Option.orElse] at hv ⊢
      rw [hv]

/-- C6 witness: the default/per-call merge evaluated on the
`headerDefaultsClient` call of the counterexample. -/
theorem default_headers_merged_after_per_call_witness :
    (assembleRequestConfig headerDefaultsClient getPetByIdHeaderOp
        JSValue.undefined
        ([(("petId" : String), JSValue.num 1),
          ("x-petshop-id", JSValue.str "perCallShop")].foldl
          (objRouteStep getPetByIdHeaderOp.parameters) {})
        (some "http://localhost:8080")).headers.lookup "x-petshop-id" =
      some (.str "defaultShop") :=
  (default_headers_merged_after_per_call headerDefaultsClient getPetByIdHeaderOp
    { params := .obj [("petId", .num 1), ("x-petshop-id", .str "perCallShop")],
      payload := .undefined }
    _ "x-petshop-id" (.str "defaultShop") rfl (by decide) (by decide)).1 rfl rfl

/-- C7: the per-call override config is merged last over the computed axios
config: `params` and `headers` merge key-by-key (an override entry wins per
key, unmentioned keys are kept from the computed config), while every other
transport field present in the override replaces the computed value
wholesale. -/
theorem override_config_merged_last (c : ClientState) (op : Operation)
    (args : OperationArgs) (o : OverrideConfig) (r rbase : AxiosRequestConfig)
    (k : String)
    (h : getAxiosConfigForOperation c op args (some o) = .ok r)
    (hbase : getAxiosConfigForOperation c op args none = .ok rbase)
    (hnp : ((o.params.getD []).map Prod.fst).Nodup)
    (hnh : ((o.headers.getD []).map Prod.fst).Nodup) :
    r.params.lookup k =
      (((o.params.getD []).lookup k).orElse fun _ => rbase.params.lookup k) ∧
    r.headers.lookup k =
      (((o.headers.getD []).lookup k).orElse fun _ => rbase.headers.lookup k) ∧
    r.method = (o.method.orElse fun _ => rbase.method) ∧
    r.url = (o.url.orElse fun _ => rbase.url) ∧
    r.data = (o.data.orElse fun _ => rbase.data) ∧
    r.baseURL = (o.baseURL.orElse fun _ => rbase.baseURL) ∧
    r.timeout = (o.timeout.orElse fun _ => rbase.timeout) ∧
    r.responseType = (o.responseType.orElse fun _ => rbase.responseType) := by
  unfold getAxiosConfigForOperation at h hbase
  cases hreq : getRequestConfigForOperation c op args with
  | error e =>
    rw [hreq] at h
    exact absurd h (by simp [Bind.bind, Except.bind])
  | ok req =>
    rw [hreq] at h hbase
    simp only [Bind.bind, Except.bind] at h hbase
    injection h with h
    injection hbase with hbase
    subst h
    subst hbase
    refine ⟨?_, ?_, rfl, rfl, rfl, rfl, rfl, rfl⟩
    · exact lookup_objMerge _ _ _ hnp
    · exact lookup_objMerge _ _ _ hnh

/-- C7 witness: the override merge evaluated on `getPetById 1` with
`overrideCfg` (per-key `params`/`headers` merge, wholesale `timeout`). -/
theorem override_config_merged_last_witness :
    (axiosCfgWithOverride.params.lookup "q" =
      (((overrideCfg.params.getD []).lookup "q").orElse
        fun _ => axiosCfgBase.params.lookup "q")) ∧
    (axiosCfgWithOverride.headers.lookup "q" =
      (((overrideCfg.headers.getD []).lookup "q").orElse
        fun _ => axiosCfgBase.headers.lookup "q")) ∧
    axiosCfgWithOverride.method = (overrideCfg.method.orElse fun _ => axiosCfgBase.method) ∧
    axiosCfgWithOverride.url = (overrideCfg.url.orElse fun _ => axiosCfgBase.url) ∧
    axiosCfgWithOverride.data = (overrideCfg.data.orElse fun _ => axiosCfgBase.data) ∧
    axiosCfgWithOverride.baseURL = (overrideCfg.baseURL.orElse fun _ => axiosCfgBase.baseURL) ∧
    axiosCfgWithOverride.timeout = (overrideCfg.timeout.orElse fun _ => axiosCfgBase.timeout) ∧
    axiosCfgWithOverride.responseType =
      (overrideCfg.responseType.orElse fun _ => axiosCfgBase.responseType) :=
  override_config_merged_last petStoreClient getPetByIdOp
    { params := .scalar (.num 1), payload := .undefined } overrideCfg
    axiosCfgWithOverride axiosCfgBase "q" rfl rfl (by decide) (by decide)

/-- C8: for an operation declaring only path parameters, calling with the
plain object `{name: value, ...}` and calling with the explicit array
`[{name, value, in: 'path'}, ...]` produce RequestConfigs with identical
`path` and identical `pathParams` (provided the supplied names are declared
and no value is `undefined`). -/
theorem paramsObject_paramsArray_roundtrip (c : ClientState) (op : Operation)
    (fields : List (String × JSValue)) (payload : JSValue)
    (hpath : ∀ q ∈ op.parameters, q.«in» = "path")
    (hdecl : ∀ kv ∈ fields, kv.1 ∈ op.parameters.map ParameterObject.name)
    (hdef : ∀ kv ∈ fields, kv.2 ≠ JSValue.undefined) :
    (getRequestConfigForOperation c op
        { params := .obj fields, payload := payload }).map
      (fun r => (r.path, r.pathParams)) =
    (getRequestConfigForOperation c op
        { params := .list (fields.map fun kv => ⟨kv.1, kv.2, some "path"⟩),
          payload := payload }).map
      (fun r => (r.path, r.pathParams)) := by
  have hgpt : ∀ kv ∈ fields, getParamType op.parameters kv.1 = "path" := by
    intro kv hm
    rcases List.mem_map.mp (hdecl kv hm) with ⟨q, hq, hqn⟩
    unfold getParamType
    cases hf : op.parameters.find? (fun p => p.name = kv.1) with
    | none =>
      exfalso
      rw [List.find?_eq_none] at hf
      exact hf q hq (by simp [hqn])
    | some q' => exact hpath q' (List.mem_of_find?_eq_some hf)
  cases hu : getBaseURL c (some op) with
  | error e =>
    have h1 : getRequestConfigForOperation c op
        { params := .obj fields, payload := payload } = .error e := by
      unfold getRequestConfigForOperation
      rw [hu]
      rfl
    have h2 : getRequestConfigForOperation c op
        { params := .list (fields.map fun kv => ⟨kv.1, kv.2, some "path"⟩),
          payload := payload } = .error e := by
      unfold getRequestConfigForOperation
      rw [hu]
      rfl
    rw [h1, h2]
  | ok u =>
    have h1 := getRequestConfigForOperation_ok c op
      { params := .obj fields, payload := payload } _ u rfl hu
    have h2 := getRequestConfigForOperation_ok c op
      { params := .list (fields.map fun kv => ⟨kv.1, kv.2, some "path"⟩),
        payload := payload } _ u rfl hu
    rw [h1, h2]
    show (Except.ok (ε := String) (assembleRequestConfig c op payload
        (fields.foldl (objRouteStep op.parameters) {}) u)).map
      (fun r => (r.path, r.pathParams)) = _
    rw [foldl_obj_eq_list_path op.parameters fields {} hgpt hdef]

/-- C8 witness: the round-trip evaluated on `getPetOwner` with
`{petId: 1, ownerId: 2}` against the corresponding explicit array. -/
theorem paramsObject_paramsArray_roundtrip_witness :
    (getRequestConfigForOperation petStoreClient getPetOwnerOp
        { params := .obj [("petId", .num 1), ("ownerId", .num 2)],
          payload := .undefined }).map
      (fun r => (r.path, r.pathParams)) =
    (getRequestConfigForOperation petStoreClient getPetOwnerOp
        { params := .list ([(("petId" : String), JSValue.num 1),
            ("ownerId", JSValue.num 2)].map fun kv => ⟨kv.1, kv.2, some "path"⟩),
          payload := .undefined }).map
      (fun r => (r.path, r.pathParams)) :=
  paramsObject_paramsArray_roundtrip petStoreClient getPetOwnerOp
    [("petId", .num 1), ("ownerId", .num 2)] .undefined
    (by decide) (by decide)
    (by
      intro kv hm
      simp only [List.mem_cons, List.not_mem_nil, or_false] at hm
      rcases hm with rfl | rfl <;> simp)

/-- C9 witness: the falsy-scalar equivalence evaluated on `getPetById` with
the scalar `0`. -/
theorem falsy_scalar_like_no_params_witness :
    (getRequestConfigForOperation petStoreClient getPetByIdOp
        { params := .scalar (.num 0), payload := .undefined } =
      getRequestConfigForOperation petStoreClient getPetByIdOp
        { params := .undef, payload := .undefined }) ∧
    (∀ r, getRequestConfigForOperation petStoreClient getPetByIdOp
        { params := .scalar (.num 0), payload := .undefined } = .ok r →
      r.query = [] ∧ r.cookies = [] ∧
      r.pathParams = (templateNames getPetByIdOp.path).foldl
        (fun l n => objSet l n (.str "undefined")) []) :=
  falsy_scalar_like_no_params petStoreClient getPetByIdOp (.num 0)
    .undefined (by decide)

end OpenAPIClientAxios
